import Mathlib

/-!
Verification of the go-base instant-messaging core.

This file gives a shallow embedding of the IM module of the repository
(packages im/internal/core, im/internal/model, im/internal/protocol and the
repository layer for messages, sessions and routes) and proves or refutes the
frozen claims about it.

Conventions of the embedding:
- Go int64/int fields become Int (limits that index lists become Nat).
- A database table becomes a List of row structures, in insertion (primary-key)
  order; a gorm UPDATE is a map over the rows, a SELECT is filter/sort/take,
  First is List.find?.
- Go maps become association lists (List (key, value)); reading a missing key
  yields the Go zero value where the source relies on that.
- model.Message and repository.DBMessage carry the same business fields and
  MessageRepository.toModel is a field-by-field copy, so a single structure
  Message embeds both.
- Wall-clock reads (time.Now) become explicit time parameters.
-/

namespace GoBaseIM

/-! Message status constants from im/internal/model/model.go. -/

def MsgStatusSending : Int := 1

def MsgStatusSent : Int := 2

def MsgStatusDelivered : Int := 3

def MsgStatusRead : Int := 4

def MsgStatusFailed : Int := 5

def SessionTypeSingle : Int := 1

def SessionTypeGroup : Int := 2

/-- A message row: the shared fields of model.Message and repository.DBMessage
(table im_messages). -/
structure Message where
  msgID : String
  fromUserID : Int
  toUserID : Int
  groupID : Int := 0
  content : String := ""
  msgType : Int := 1
  status : Int := 1
  fileID : String := ""
  clientTime : Int := 0
  serverTime : Int := 0
  deliveredTime : Int := 0
  readTime : Int := 0
deriving Repr, DecidableEq

/-- The SET clause of MessageRepository.UpdateStatus applied to one row:
status is set unconditionally, and delivered_time or read_time is set when the
new status is delivered or read respectively.  There is no WHERE guard on the
old status. -/
def updateStatusRow (msgID : String) (status updateTime : Int) (m : Message) :
    Message :=
  if m.msgID = msgID then
    { m with
      status := status
      deliveredTime :=
        if status = MsgStatusDelivered then updateTime else m.deliveredTime
      readTime := if status = MsgStatusRead then updateTime else m.readTime }
  else m

/-- MessageRepository.UpdateStatus (part_007): an unconditional
UPDATE im_messages SET ... WHERE msg_id = ?.  Returns the new table and the
number of rows matched (gorm RowsAffected); gorm reports a nil error when zero
rows match, so matching no row is not an error. -/
def MessageRepository.UpdateStatus (tbl : List Message) (msgID : String)
    (status updateTime : Int) : List Message × Nat :=
  (tbl.map (updateStatusRow msgID status updateTime),
    (tbl.filter (fun m => m.msgID == msgID)).length)

/-- MessageRepository.GetByMsgID: SELECT ... WHERE msg_id = ? LIMIT 1;
none embeds gorm.ErrRecordNotFound. -/
def MessageRepository.GetByMsgID (tbl : List Message) (msgID : String) :
    Option Message :=
  tbl.find? (fun m => m.msgID == msgID)

/-- model.GetMessagesRequest. -/
structure GetMessagesRequest where
  userID : Int
  targetID : Int
  sessionType : Int
  beforeTime : Int
  limit : Nat
deriving Repr, DecidableEq

/-- The WHERE clause of MessageRepository.GetMessages: for single chat the two
directions of the conversation, otherwise the group id. -/
def msgMatches (req : GetMessagesRequest) (m : Message) : Bool :=
  if req.sessionType == SessionTypeSingle then
    (m.fromUserID == req.userID && m.toUserID == req.targetID) ||
      (m.fromUserID == req.targetID && m.toUserID == req.userID)
  else
    m.groupID == req.targetID

/-- Comparator embedding ORDER BY server_time DESC. -/
def serverTimeDesc (a b : Message) : Bool :=
  decide (b.serverTime ≤ a.serverTime)

/-- Comparator embedding ORDER BY server_time ASC. -/
def serverTimeAsc (a b : Message) : Bool :=
  decide (a.serverTime ≤ b.serverTime)

/-- The WHERE stage of MessageRepository.GetMessages: conversation filter,
then the optional exclusive upper bound server_time < before_time when
before_time > 0. -/
def MessageRepository.getMessagesQuery (tbl : List Message)
    (req : GetMessagesRequest) : List Message :=
  let base := tbl.filter (msgMatches req)
  if req.beforeTime > 0 then
    base.filter (fun m => m.serverTime < req.beforeTime)
  else base

/-- Default limit applied by GetMessages when the request carries 0. -/
def getMessagesLimit (req : GetMessagesRequest) : Nat :=
  if req.limit = 0 then 20 else req.limit

/-- MessageRepository.GetMessages: conversation filter, optional exclusive
upper bound server_time < before_time when before_time > 0, default limit 20
when the request carries 0, ORDER BY server_time DESC, LIMIT. -/
def MessageRepository.GetMessages (tbl : List Message)
    (req : GetMessagesRequest) : List Message :=
  ((MessageRepository.getMessagesQuery tbl req).mergeSort
    serverTimeDesc).take (getMessagesLimit req)

/-- MessageRepository.GetUndeliveredMessages: rows with to_user_id = userID and
status = sent, ORDER BY server_time ASC, LIMIT. -/
def MessageRepository.GetUndeliveredMessages (tbl : List Message)
    (userID : Int) (lim : Nat) : List Message :=
  ((tbl.filter
      (fun m => m.toUserID == userID && m.status == MsgStatusSent)).mergeSort
    serverTimeAsc).take lim

/-- C1: the claim states that update_status refuses to move a message status
backward, so that after any sequence of calls the persisted status is monotone
in time.  The code has no such guard: this evaluation runs the embedded
UpdateStatus on a concrete row, first to read (4) and then to delivered (3),
and the second call regresses the persisted status from 4 to 3 (and overwrites
delivered_time), violating the claim. -/
theorem updateStatus_regresses_read_to_delivered :
    (((MessageRepository.UpdateStatus
        [{ msgID := "m1", fromUserID := 1, toUserID := 2, content := "hi",
           status := MsgStatusSent, clientTime := 900, serverTime := 950 }]
        "m1" MsgStatusRead 980).1.head?.map (·.status)) = some MsgStatusRead)
    ∧
    (((MessageRepository.UpdateStatus
        (MessageRepository.UpdateStatus
          [{ msgID := "m1", fromUserID := 1, toUserID := 2, content := "hi",
             status := MsgStatusSent, clientTime := 900, serverTime := 950 }]
          "m1" MsgStatusRead 980).1
        "m1" MsgStatusDelivered 1000).1.head?.map (·.status)) =
      some MsgStatusDelivered)
    ∧ MsgStatusDelivered < MsgStatusRead := by
  decide

/-! Session layer: model.Session and the im_sessions table (part_007). -/

/-- model.Session, the argument of SessionRepository.UpdateSession. -/
structure Session where
  userID : Int
  targetID : Int
  sessionType : Int
  lastMsgContent : String := ""
  lastMsgTime : Int := 0
  unreadCount : Int := 0
deriving Repr, DecidableEq

/-- A row of im_sessions (repository.DBSession, business fields). -/
structure DBSession where
  userID : Int
  targetID : Int
  sessionType : Int
  lastMsgContent : String
  lastMsgTime : Int
  unreadCount : Int
deriving Repr, DecidableEq

/-- The composite primary key (user_id, target_id, session_type) match. -/
def sessionKeyMatches (s : Session) (r : DBSession) : Bool :=
  r.userID == s.userID && r.targetID == s.targetID &&
    r.sessionType == s.sessionType

/-- SessionRepository.UpdateSession: an upsert on the composite key.  On
conflict the assignments replace last_msg_content and last_msg_time and add the
incoming UnreadCount to the stored unread_count.  On insert the row is built
from the dbSession literal in the source, which copies UserID, TargetID,
SessionType, LastMsgContent and LastMsgTime but not UnreadCount, so a freshly
inserted row carries the Go zero value 0 for unread_count. -/
def SessionRepository.UpdateSession (tbl : List DBSession) (s : Session) :
    List DBSession :=
  if tbl.any (sessionKeyMatches s) then
    tbl.map (fun r =>
      if sessionKeyMatches s r then
        { r with
          lastMsgContent := s.lastMsgContent
          lastMsgTime := s.lastMsgTime
          unreadCount := r.unreadCount + s.unreadCount }
      else r)
  else
    tbl ++ [{ userID := s.userID, targetID := s.targetID,
              sessionType := s.sessionType,
              lastMsgContent := s.lastMsgContent,
              lastMsgTime := s.lastMsgTime, unreadCount := 0 }]

/-- IMServer.updateSession (route.go): upsert the sender row (UnreadCount left
at the zero value) then the recipient row with UnreadCount 1. -/
def IMServer.updateSession (sessions : List DBSession) (msg : Message) :
    List DBSession :=
  let afterSender := SessionRepository.UpdateSession sessions
    { userID := msg.fromUserID, targetID := msg.toUserID,
      sessionType := SessionTypeSingle, lastMsgContent := msg.content,
      lastMsgTime := msg.serverTime }
  SessionRepository.UpdateSession afterSender
    { userID := msg.toUserID, targetID := msg.fromUserID,
      sessionType := SessionTypeSingle, lastMsgContent := msg.content,
      lastMsgTime := msg.serverTime, unreadCount := 1 }

/-- Read the stored unread_count for the key (userID, targetID, single). -/
def unreadOf (tbl : List DBSession) (userID targetID : Int) : Option Int :=
  (tbl.find? (fun r => r.userID == userID && r.targetID == targetID &&
    r.sessionType == SessionTypeSingle)).map (·.unreadCount)

/-- C3: the claim states that after the session upsert for a message from A to
B the recipient's unread_count is exactly one greater than before, including
the first message of the conversation where no row exists yet.  On the first
message the code inserts the recipient row with unread_count 0 (the insert
literal drops UnreadCount), not 1: this evaluation runs the embedded
updateSession on an empty session table for a message 1 -> 2 and B's stored
unread_count is 0; a second message then leaves it at 1 instead of 2.  The
sender row is unchanged at 0 as claimed. -/
theorem updateSession_first_message_unread_zero :
    (unreadOf (IMServer.updateSession []
        { msgID := "m1", fromUserID := 1, toUserID := 2, content := "hi",
          status := MsgStatusSent, serverTime := 950 }) 2 1 = some 0)
    ∧
    (unreadOf (IMServer.updateSession (IMServer.updateSession []
        { msgID := "m1", fromUserID := 1, toUserID := 2, content := "hi",
          status := MsgStatusSent, serverTime := 950 })
        { msgID := "m2", fromUserID := 1, toUserID := 2, content := "yo",
          status := MsgStatusSent, serverTime := 960 }) 2 1 = some 1)
    ∧
    (unreadOf (IMServer.updateSession []
        { msgID := "m1", fromUserID := 1, toUserID := 2, content := "hi",
          status := MsgStatusSent, serverTime := 950 }) 1 2 = some 0) := by
  decide

/-! Association-list helpers embedding Go map reads and writes. -/

/-- Read a Go map: the value stored under the key, if any. -/
def getKey? {α β : Type} [BEq α] (xs : List (α × β)) (k : α) : Option β :=
  (xs.find? (fun p => p.1 == k)).map (·.2)

/-- Write a Go map: replace the entry under the key or append a new one. -/
def setKey {α β : Type} [BEq α] (xs : List (α × β)) (k : α) (v : β) :
    List (α × β) :=
  if xs.any (fun p => p.1 == k) then
    xs.map (fun p => if p.1 == k then (k, v) else p)
  else
    xs ++ [(k, v)]

/-! Client wire protocol (im/internal/protocol/protocol.go).  JSON framing is
not modelled; an envelope is embedded as the structure that is marshalled. -/

def WSMsgTypeChatMsg : String := "chat_msg"

def WSMsgTypeStatusUpdate : String := "status_update"

def WSMsgTypeAck : String := "ack"

/-- protocol.WSPushMessage. -/
structure WSPushMessage where
  msgID : String
  fromUserID : Int
  content : String
  msgType : Int
  fileID : String
  status : Int
  clientTime : Int
  serverTime : Int
deriving Repr, DecidableEq

/-- protocol.WSStatusUpdate. -/
structure WSStatusUpdate where
  msgID : String
  status : Int
  updateTime : Int
deriving Repr, DecidableEq

/-- protocol.WSAckMessage. -/
structure WSAckMessage where
  msgID : String
  status : Int
  serverTime : Int
  error : String
deriving Repr, DecidableEq

/-- protocol.WSReceipt. -/
structure WSReceipt where
  msgID : String
  type : String
  time : Int
deriving Repr, DecidableEq

/-- The data payloads a server-to-client envelope carries. -/
inductive WSData where
  | push : WSPushMessage → WSData
  | statusUpd : WSStatusUpdate → WSData
  | ackMsg : WSAckMessage → WSData
deriving Repr, DecidableEq

/-- protocol.WSMessage, the envelope written to the outbound queue. -/
structure WSMessage where
  type : String
  msgID : String := ""
  data : Option WSData := none
  timestamp : Int := 0
deriving Repr, DecidableEq

/-! Connection Hub (im/internal/core/hub.go).  Per-node, in-memory.  The
websocket connection is embedded as an opaque handle number plus closure
flags; the outbound channel of capacity 256 becomes a queue list. -/

/-- Capacity of a client outbound channel (make(chan, 256) in NewHub). -/
def sendQueueCap : Nat := 256

/-- core.Client: user, connection handle, outbound queue, and whether the
queue channel and the connection have been closed. -/
structure Client where
  userID : Int
  connID : Nat
  sendQueue : List WSMessage := []
  sendClosed : Bool := false
  connClosed : Bool := false
deriving Repr, DecidableEq

/-- core.Hub: the per-node map from user id to live client. -/
structure Hub where
  clients : List (Int × Client) := []
deriving Repr, DecidableEq

/-- Hub.Register: build the fresh client; if a client already exists for the
user, close its queue and its connection; then install the new client in the
map.  Returns the new hub, the new client, and the torn-down prior client if
there was one. -/
def Hub.Register (h : Hub) (userID : Int) (connID : Nat) :
    Hub × Client × Option Client :=
  let newClient : Client := { userID := userID, connID := connID }
  match getKey? h.clients userID with
  | some oldClient =>
      (⟨setKey h.clients userID newClient⟩, newClient,
        some { oldClient with sendClosed := true, connClosed := true })
  | none =>
      (⟨setKey h.clients userID newClient⟩, newClient, none)

/-- Hub.SendToUser: false when the user has no client in the map; otherwise a
non-blocking channel send, which succeeds exactly when the outbound queue
holds fewer than its capacity. -/
def Hub.SendToUser (h : Hub) (userID : Int) (data : WSMessage) : Hub × Bool :=
  match getKey? h.clients userID with
  | none => (h, false)
  | some c =>
      if c.sendQueue.length < sendQueueCap then
        (⟨setKey h.clients userID
            { c with sendQueue := c.sendQueue ++ [data] }⟩, true)
      else
        (h, false)

/-- Hub.HasClient. -/
def Hub.HasClient (h : Hub) (userID : Int) : Bool :=
  (getKey? h.clients userID).isSome

/-! Gateway core (im/internal/core/route.go).  Database tables and the hub are
passed and returned explicitly; time.Now values are explicit parameters. -/

/-- The chat_msg push envelope built identically in pushToLocalUser and in
pushOfflineMessages. -/
def IMServer.pushPayload (msg : Message) : WSMessage :=
  { type := WSMsgTypeChatMsg, msgID := msg.msgID, timestamp := msg.serverTime,
    data := some (.push
      { msgID := msg.msgID, fromUserID := msg.fromUserID,
        content := msg.content, msgType := msg.msgType, fileID := msg.fileID,
        status := msg.status, clientTime := msg.clientTime,
        serverTime := msg.serverTime }) }

/-- The status_update envelope built in notifyStatusUpdate. -/
def IMServer.statusUpdatePayload (msgID : String) (status updateTime : Int) :
    WSMessage :=
  { type := WSMsgTypeStatusUpdate, msgID := msgID, timestamp := updateTime,
    data := some (.statusUpd
      { msgID := msgID, status := status, updateTime := updateTime }) }

/-- IMServer.notifyStatusUpdate: best-effort push of a status_update envelope
to the given user on the local hub (the boolean result is dropped). -/
def IMServer.notifyStatusUpdate (hub : Hub) (userID : Int) (msgID : String)
    (status updateTime : Int) : Hub :=
  (Hub.SendToUser hub userID
    (IMServer.statusUpdatePayload msgID status updateTime)).1

/-- IMServer.pushToLocalUser: push the chat_msg envelope to the recipient on
the local hub; when the queue accepts, update the persisted status to
delivered with delivered_time = now and notify the sender on the local hub;
otherwise leave the table unchanged. -/
def IMServer.pushToLocalUser (tbl : List Message) (hub : Hub) (msg : Message)
    (now : Int) : List Message × Hub :=
  let sent := Hub.SendToUser hub msg.toUserID (IMServer.pushPayload msg)
  if sent.2 then
    let tbl1 := (MessageRepository.UpdateStatus tbl msg.msgID
      MsgStatusDelivered now).1
    (tbl1, IMServer.notifyStatusUpdate sent.1 msg.fromUserID msg.msgID
      MsgStatusDelivered now)
  else
    (tbl, sent.1)

/-- imgrpc.ForwardMessageRequest. -/
structure ForwardMessageRequest where
  toUserID : Int
  msgID : String
  fromUserID : Int
  content : String
  msgType : Int
  clientTime : Int
  serverTime : Int
deriving Repr, DecidableEq

/-- imgrpc.ForwardMessageResponse. -/
structure ForwardMessageResponse where
  delivered : Bool
  error : String := ""
deriving Repr, DecidableEq

/-- The model.Message literal the ForwardMessage server handler builds from
the request (status sent; group, file and receipt times at zero values). -/
def IMServer.forwardedMessage (req : ForwardMessageRequest) : Message :=
  { msgID := req.msgID, fromUserID := req.fromUserID,
    toUserID := req.toUserID, content := req.content, msgType := req.msgType,
    status := MsgStatusSent, clientTime := req.clientTime,
    serverTime := req.serverTime }

/-- IMServer.ForwardMessage (gRPC server side): push the rebuilt message to
the local user and answer with Delivered set to true, whatever the push
returned. -/
def IMServer.ForwardMessage (tbl : List Message) (hub : Hub)
    (req : ForwardMessageRequest) (now : Int) :
    (List Message × Hub) × ForwardMessageResponse :=
  (IMServer.pushToLocalUser tbl hub (IMServer.forwardedMessage req) now,
    { delivered := true, error := "" })

/-- IMServer.handleDeliveredReceipt: unconditionally update the message to
delivered with delivered_time = deliveredTime, then look the row up and notify
its sender; a failed lookup returns after the update has been applied. -/
def IMServer.handleDeliveredReceipt (tbl : List Message) (hub : Hub)
    (receipt : WSReceipt) (deliveredTime : Int) : List Message × Hub :=
  let tbl1 := (MessageRepository.UpdateStatus tbl receipt.msgID
    MsgStatusDelivered deliveredTime).1
  match MessageRepository.GetByMsgID tbl1 receipt.msgID with
  | none => (tbl1, hub)
  | some msg =>
      (tbl1, IMServer.notifyStatusUpdate hub msg.fromUserID receipt.msgID
        MsgStatusDelivered deliveredTime)

/-- The loop body of IMServer.MarkAsRead: per id, update to read; a repository
error is logged and skipped with continue; on a found row notify the sender. -/
def IMServer.markAsReadLoop (tbl : List Message) (hub : Hub)
    (msgIDs : List String) (readTime : Int) : List Message × Hub :=
  match msgIDs with
  | [] => (tbl, hub)
  | msgID :: rest =>
      let tbl1 := (MessageRepository.UpdateStatus tbl msgID MsgStatusRead
        readTime).1
      match MessageRepository.GetByMsgID tbl1 msgID with
      | none => IMServer.markAsReadLoop tbl1 hub rest readTime
      | some msg =>
          IMServer.markAsReadLoop tbl1
            (IMServer.notifyStatusUpdate hub msg.fromUserID msgID
              MsgStatusRead readTime) rest readTime

/-- IMServer.MarkAsRead: run the loop and return nil, the only error the
function ever returns (repository errors inside the loop only continue). -/
def IMServer.MarkAsRead (tbl : List Message) (hub : Hub) (_userID : Int)
    (msgIDs : List String) (readTime : Int) :
    (List Message × Hub) × Option String :=
  (IMServer.markAsReadLoop tbl hub msgIDs readTime, none)

/-- The drain loop of IMServer.pushOfflineMessages over the fetched messages:
push each in order; on acceptance update to delivered and notify the sender,
on rejection stop.  The third component is the trace of message ids delivered,
in push order (the success log line of the source). -/
def IMServer.offlineDrainLoop (tbl : List Message) (hub : Hub) (userID : Int)
    (msgs : List Message) (now : Int) : List Message × Hub × List String :=
  match msgs with
  | [] => (tbl, hub, [])
  | msg :: rest =>
      let sent := Hub.SendToUser hub userID (IMServer.pushPayload msg)
      if sent.2 then
        let tbl1 := (MessageRepository.UpdateStatus tbl msg.msgID
          MsgStatusDelivered now).1
        let hub2 := IMServer.notifyStatusUpdate sent.1 msg.fromUserID msg.msgID
          MsgStatusDelivered now
        let rec1 := IMServer.offlineDrainLoop tbl1 hub2 userID rest now
        (rec1.1, rec1.2.1, msg.msgID :: rec1.2.2)
      else
        (tbl, sent.1, [])

/-- IMServer.pushOfflineMessages: fetch up to 100 undelivered messages for the
user, oldest first, and drain them. -/
def IMServer.pushOfflineMessages (tbl : List Message) (hub : Hub)
    (userID : Int) (now : Int) : List Message × Hub × List String :=
  IMServer.offlineDrainLoop tbl hub userID
    (MessageRepository.GetUndeliveredMessages tbl userID 100) now

/-! Route layer: the im_servers and im_user_routes tables (part_006) and the
core.RouteManager with its local caches (route.go). -/

/-- A row of im_servers (repository.DBServer, business fields). -/
structure DBServer where
  serverID : String
  grpcAddr : String
  lastHeartbeat : Int
deriving Repr, DecidableEq

/-- A row of im_user_routes (repository.DBUserRoute, business fields). -/
structure DBUserRoute where
  userID : Int
  serverID : String
  lastHeartbeat : Int
deriving Repr, DecidableEq

/-- repository.UserRoute, the result of the joined lookup. -/
structure UserRoute where
  serverID : String
  grpcAddr : String
deriving Repr, DecidableEq

/-- RouteRepository.RegisterUserRoute: update the row for the user if one
exists, otherwise insert it; last_heartbeat is set to now either way. -/
def RouteRepository.RegisterUserRoute (routes : List DBUserRoute)
    (userID : Int) (serverID : String) (now : Int) : List DBUserRoute :=
  if routes.any (fun r => r.userID == userID) then
    routes.map (fun r =>
      if r.userID == userID then
        { r with serverID := serverID, lastHeartbeat := now }
      else r)
  else
    routes ++ [{ userID := userID, serverID := serverID,
                 lastHeartbeat := now }]

/-- RouteRepository.UnregisterUserRoute: DELETE WHERE user_id = ?. -/
def RouteRepository.UnregisterUserRoute (routes : List DBUserRoute)
    (userID : Int) : List DBUserRoute :=
  routes.filter (fun r => !(r.userID == userID))

/-- RouteRepository.GetUserRoute: find the user's route row, then the server
row it points at, with no condition on either last_heartbeat; none embeds the
record-not-found error of either First. -/
def RouteRepository.GetUserRoute (routes : List DBUserRoute)
    (servers : List DBServer) (userID : Int) : Option UserRoute :=
  match routes.find? (fun r => r.userID == userID) with
  | none => none
  | some route =>
      match servers.find? (fun s => s.serverID == route.serverID) with
      | none => none
      | some server => some { serverID := route.serverID,
                              grpcAddr := server.grpcAddr }

/-- RouteRepository.GetActiveServers: servers whose last heartbeat is within
the 60 second liveness window. -/
def RouteRepository.GetActiveServers (servers : List DBServer) (now : Int) :
    List DBServer :=
  servers.filter (fun s => decide (s.lastHeartbeat > now - 60))

/-- core.RouteCache, one user-route cache entry. -/
structure RouteCache where
  gatewayID : String
  cacheTime : Int
deriving Repr, DecidableEq

/-- core.RouteManager: server identity, cache TTL, and the two local caches
(user routes and per-server gateway addresses). -/
structure RouteManager where
  serverID : String
  cacheTTL : Int
  userRoutes : List (Int × RouteCache) := []
  gatewayAddrs : List (String × String) := []
deriving Repr, DecidableEq

/-- The triple RouteManager.GetUserRoute returns. -/
structure RouteLookup where
  gatewayID : String
  gatewayAddr : String
  online : Bool
deriving Repr, DecidableEq

/-- RouteManager.Register: write the route table, then set the user-route
cache entry; the gateway-address cache is not touched. -/
def RouteManager.Register (rm : RouteManager) (routes : List DBUserRoute)
    (userID : Int) (gatewayID : String) (now : Int) :
    RouteManager × List DBUserRoute :=
  let routes1 := RouteRepository.RegisterUserRoute routes userID gatewayID now
  let entry : RouteCache := { gatewayID := gatewayID, cacheTime := now }
  ({ rm with userRoutes := setKey rm.userRoutes userID entry }, routes1)

/-- The database branch of RouteManager.GetUserRoute: on a repository miss the
user is offline; on a hit both caches are filled and the user is online. -/
def RouteManager.getUserRouteFromDB (rm : RouteManager)
    (routes : List DBUserRoute) (servers : List DBServer) (now userID : Int) :
    RouteManager × RouteLookup :=
  match RouteRepository.GetUserRoute routes servers userID with
  | none => (rm, { gatewayID := "", gatewayAddr := "", online := false })
  | some ur =>
      let entry : RouteCache := { gatewayID := ur.serverID, cacheTime := now }
      ({ rm with
          userRoutes := setKey rm.userRoutes userID entry
          gatewayAddrs := setKey rm.gatewayAddrs ur.serverID ur.grpcAddr },
        { gatewayID := ur.serverID, gatewayAddr := ur.grpcAddr,
          online := true })

/-- RouteManager.GetUserRoute: a fresh cache entry answers immediately with
online true and the address from the gateway-address cache (the Go map read
yields the empty string when that cache has no entry); a missing or expired
entry falls through to the database branch. -/
def RouteManager.GetUserRoute (rm : RouteManager) (routes : List DBUserRoute)
    (servers : List DBServer) (now userID : Int) :
    RouteManager × RouteLookup :=
  match getKey? rm.userRoutes userID with
  | some route =>
      if now - route.cacheTime < rm.cacheTTL then
        (rm, { gatewayID := route.gatewayID,
               gatewayAddr := (getKey? rm.gatewayAddrs route.gatewayID).getD "",
               online := true })
      else
        RouteManager.getUserRouteFromDB rm routes servers now userID
  | none => RouteManager.getUserRouteFromDB rm routes servers now userID

/-! Claim theorems: receipts and inter-node forwarding. -/

/-- A persisted chat message in status sent, used as a concrete input. -/
def sampleSentMsg : Message :=
  { msgID := "m1", fromUserID := 1, toUserID := 2, content := "hi",
    status := MsgStatusSent, clientTime := 900, serverTime := 950 }

/-- C5: the claim states that a second delivered_receipt for the same msg_id
neither regresses the status nor changes the persisted delivered_time again,
the state after two receipts equalling the state after one.  Running the
embedded handler twice on a concrete message shows delivered_time is
overwritten by the second receipt (1000 then 2000), so the state after two
receipts differs from the state after one. -/
theorem deliveredReceipt_overwrites_delivered_time :
    ((IMServer.handleDeliveredReceipt [sampleSentMsg] ⟨[]⟩
        { msgID := "m1", type := "delivered", time := 990 } 1000).1.head?.map
      (·.deliveredTime) = some 1000)
    ∧
    (((IMServer.handleDeliveredReceipt
        (IMServer.handleDeliveredReceipt [sampleSentMsg] ⟨[]⟩
          { msgID := "m1", type := "delivered", time := 990 } 1000).1 ⟨[]⟩
        { msgID := "m1", type := "delivered", time := 1990 } 2000).1.head?.map
      (·.deliveredTime)) = some 2000)
    ∧
    (IMServer.handleDeliveredReceipt
        (IMServer.handleDeliveredReceipt [sampleSentMsg] ⟨[]⟩
          { msgID := "m1", type := "delivered", time := 990 } 1000).1 ⟨[]⟩
        { msgID := "m1", type := "delivered", time := 1990 } 2000).1 ≠
      (IMServer.handleDeliveredReceipt [sampleSentMsg] ⟨[]⟩
        { msgID := "m1", type := "delivered", time := 990 } 1000).1 := by
  decide

/-- The ForwardMessage request used as a concrete input for C2. -/
def sampleForwardReq : ForwardMessageRequest :=
  { toUserID := 2, msgID := "m1", fromUserID := 1, content := "hi",
    msgType := 1, clientTime := 900, serverTime := 950 }

/-- C2 counterexample: the claim states the RPC returns delivered=true iff the
recipient's local send queue accepted the payload, and in particular
delivered=false when the recipient is absent on that node.  On a node whose
hub has no client for the recipient, the push is rejected yet the embedded
ForwardMessage still answers delivered=true, refuting the claim. -/
theorem forwardMessage_reports_delivered_despite_rejected_queue :
    ((Hub.SendToUser ⟨[]⟩ 2
        (IMServer.pushPayload (IMServer.forwardedMessage sampleForwardReq))).2
      = false)
    ∧
    ((IMServer.ForwardMessage [sampleSentMsg] ⟨[]⟩ sampleForwardReq
        1000).2.delivered = true) := by
  decide

/-- C2 amended: the receiving node pushes the message to its local hub and,
when the queue accepts, itself advances the persisted status to delivered; but
the RPC response reports delivered=true unconditionally, even when the push
was rejected, in which case the message table is left untouched (the message
stays sent). -/
theorem forwardMessage_always_delivered_true (tbl : List Message) (hub : Hub)
    (req : ForwardMessageRequest) (now : Int) :
    ((IMServer.ForwardMessage tbl hub req now).2 =
      { delivered := true, error := "" })
    ∧
    ((Hub.SendToUser hub req.toUserID
        (IMServer.pushPayload (IMServer.forwardedMessage req))).2 = false →
      (IMServer.ForwardMessage tbl hub req now).1.1 = tbl) := by
  refine ⟨rfl, fun h => ?_⟩
  simp only [IMServer.forwardedMessage] at h
  simp only [IMServer.ForwardMessage, IMServer.pushToLocalUser,
    IMServer.forwardedMessage, h, Bool.false_eq_true, if_false]

/-- C2 amended witness: the amended theorem instantiated at the concrete
rejected-push input. -/
theorem forwardMessage_always_delivered_true_witness :
    ((IMServer.ForwardMessage [sampleSentMsg] ⟨[]⟩ sampleForwardReq 1000).2 =
      { delivered := true, error := "" })
    ∧
    ((IMServer.ForwardMessage [sampleSentMsg] ⟨[]⟩ sampleForwardReq
        1000).1.1 = [sampleSentMsg]) :=
  ⟨(forwardMessage_always_delivered_true [sampleSentMsg] ⟨[]⟩ sampleForwardReq
      1000).1,
    (forwardMessage_always_delivered_true [sampleSentMsg] ⟨[]⟩
      sampleForwardReq 1000).2 (by decide)⟩

/-! Lemmas about the association-list map operations. -/

theorem getKey?_map_replace {α β : Type} [BEq α] [LawfulBEq α]
    (xs : List (α × β)) (k : α) (v : β)
    (h : xs.any (fun p => p.1 == k) = true) :
    getKey? (xs.map (fun p => if p.1 == k then (k, v) else p)) k = some v := by
  induction xs with
  | nil => simp at h
  | cons p rest ih =>
      simp only [List.any_cons, Bool.or_eq_true] at h
      by_cases hp : p.1 == k
      · simp [getKey?, hp, List.find?_cons]
      · have hr : rest.any (fun q => q.1 == k) = true := by
          rcases h with h | h
          · exact absurd h hp
          · exact h
        simpa [getKey?, hp, List.find?_cons] using ih hr

theorem getKey?_setKey_self {α β : Type} [BEq α] [LawfulBEq α]
    (xs : List (α × β)) (k : α) (v : β) :
    getKey? (setKey xs k v) k = some v := by
  unfold setKey
  by_cases h : xs.any (fun p => p.1 == k)
  · rw [if_pos h]
    exact getKey?_map_replace xs k v h
  · rw [if_neg h]
    have hnone : xs.find? (fun p => p.1 == k) = none := by
      rw [List.find?_eq_none]
      intro p hp hpk
      exact h (List.any_eq_true.mpr ⟨p, hp, hpk⟩)
    simp [getKey?, List.find?_append, hnone]

theorem nodupKeys_setKey {α β : Type} [BEq α] [LawfulBEq α]
    (xs : List (α × β)) (k : α) (v : β)
    (h : (xs.map (·.1)).Nodup) : ((setKey xs k v).map (·.1)).Nodup := by
  unfold setKey
  by_cases hany : xs.any (fun p => p.1 == k)
  · rw [if_pos hany]
    have hkeys : (xs.map (fun p => if p.1 == k then (k, v) else p)).map (·.1)
        = xs.map (·.1) := by
      rw [List.map_map]
      apply List.map_congr_left
      intro p _
      by_cases hpk : p.1 == k
      · simp only [Function.comp_apply, hpk, if_true]
        exact (eq_of_beq hpk).symm
      · simp [Function.comp_apply, hpk]
    rw [hkeys]
    exact h
  · rw [if_neg hany, List.map_append]
    simp only [List.map_cons, List.map_nil]
    rw [List.nodup_append]
    refine ⟨h, List.nodup_singleton k, ?_⟩
    intro a ha hb
    simp only [List.mem_singleton] at hb
    subst hb
    obtain ⟨p, hp, hpk⟩ := List.mem_map.mp ha
    exact hany (List.any_eq_true.mpr ⟨p, hp, by simp [hpk]⟩)

/-! Claim theorems: route lookup and the register/lookup cache interplay. -/

/-- C4 counterexample: the claim states that a user whose route row points at
a dead server (heartbeat at least 60 seconds old, registry row still present)
is treated as offline by the route manager.  With a route row for user 2 on
server s2, a registry row for s2 whose heartbeat is 900 seconds stale, and
cold caches, the embedded lookup still answers online=true with s2 and its
address, refuting the claim. -/
theorem routeLookup_online_despite_dead_server :
    ((1000 : Int) - 100 ≥ 60)
    ∧
    ((RouteManager.GetUserRoute { serverID := "s1", cacheTTL := 30 }
        [{ userID := 2, serverID := "s2", lastHeartbeat := 100 }]
        [{ serverID := "s2", grpcAddr := "10.0.0.2:9000",
           lastHeartbeat := 100 }] 1000 2).2 =
      { gatewayID := "s2", gatewayAddr := "10.0.0.2:9000", online := true })
    := by
  decide

/-- C4 amended: the route manager lookup reports online=true with the stored
server id and its registry address whenever the user-route row and the
registry row exist, with no condition on the server heartbeat; a dead server's
users stay online until their rows are removed (staleness is handled by
forward failure and reconnect drain, not by the lookup). -/
theorem routeLookup_ignores_heartbeat (rm : RouteManager)
    (routes : List DBUserRoute) (servers : List DBServer) (now userID : Int)
    (ur : UserRoute)
    (hcache : getKey? rm.userRoutes userID = none)
    (hdb : RouteRepository.GetUserRoute routes servers userID = some ur) :
    (RouteManager.GetUserRoute rm routes servers now userID).2 =
      { gatewayID := ur.serverID, gatewayAddr := ur.grpcAddr,
        online := true } := by
  simp only [RouteManager.GetUserRoute, hcache,
    RouteManager.getUserRouteFromDB, hdb]

/-- C4 amended witness: the amended theorem instantiated at a route whose
server heartbeat is arbitrarily old. -/
theorem routeLookup_ignores_heartbeat_witness :
    (RouteManager.GetUserRoute { serverID := "s1", cacheTTL := 30 }
        [{ userID := 7, serverID := "s9", lastHeartbeat := 0 }]
        [{ serverID := "s9", grpcAddr := "10.0.0.9:9000",
           lastHeartbeat := 0 }] 100000 7).2 =
      { gatewayID := "s9", gatewayAddr := "10.0.0.9:9000",
        online := true } :=
  routeLookup_ignores_heartbeat { serverID := "s1", cacheTTL := 30 }
    [{ userID := 7, serverID := "s9", lastHeartbeat := 0 }]
    [{ serverID := "s9", grpcAddr := "10.0.0.9:9000", lastHeartbeat := 0 }]
    100000 7 { serverID := "s9", grpcAddr := "10.0.0.9:9000" }
    (by decide) (by decide)

/-- C9: after RouteManager.Register for a user on a node whose gateway-address
cache has no entry for the registered server, any lookup within the cache TTL
is served from the user-route cache and returns online=true with the server
id but the empty string as the address, because Register fills only the
user-route cache and the address cache is filled only on a database-backed
lookup.  The database contents at lookup time are irrelevant. -/
theorem register_then_lookup_empty_addr (rm : RouteManager)
    (routes routes2 : List DBUserRoute) (servers : List DBServer)
    (userID : Int) (gatewayID : String) (now later : Int)
    (haddr : getKey? rm.gatewayAddrs gatewayID = none)
    (hfresh : later - now < rm.cacheTTL) :
    (RouteManager.GetUserRoute
        (RouteManager.Register rm routes userID gatewayID now).1 routes2
        servers later userID).2 =
      { gatewayID := gatewayID, gatewayAddr := "", online := true } := by
  have h1 : getKey?
      (setKey rm.userRoutes userID
        ({ gatewayID := gatewayID, cacheTime := now } : RouteCache)) userID =
      some { gatewayID := gatewayID, cacheTime := now } :=
    getKey?_setKey_self _ _ _
  simp only [RouteManager.GetUserRoute, RouteManager.Register, h1, hfresh,
    if_pos, haddr, Option.getD_none]

/-- C9 witness: the theorem instantiated at a concrete register/lookup pair
inside the TTL. -/
theorem register_then_lookup_empty_addr_witness :
    (RouteManager.GetUserRoute
        (RouteManager.Register { serverID := "s1", cacheTTL := 30 } [] 2 "s1"
          100).1 [] [] 110 2).2 =
      { gatewayID := "s1", gatewayAddr := "", online := true } :=
  register_then_lookup_empty_addr { serverID := "s1", cacheTTL := 30 } [] []
    [] 2 "s1" 100 110 (by decide) (by decide)

/-! Claim theorems: hub registration and read-marking. -/

/-- The per-node invariant of the hub map: at most one client per user id. -/
def hubKeysNodup (h : Hub) : Prop := (h.clients.map (·.1)).Nodup

/-- C8: the hub holds at most one client per user id (registration preserves
key uniqueness), and registering while a client for the user already exists
closes the prior client's queue and its connection and installs the fresh
client in the map; with no prior client nothing is torn down. -/
theorem hub_register_unique_and_evicts (h : Hub) (userID : Int) (connID : Nat)
    (hkeys : hubKeysNodup h) :
    hubKeysNodup (Hub.Register h userID connID).1
    ∧ getKey? (Hub.Register h userID connID).1.clients userID =
        some (Hub.Register h userID connID).2.1
    ∧ (Hub.Register h userID connID).2.1 =
        { userID := userID, connID := connID }
    ∧ (∀ old : Client, getKey? h.clients userID = some old →
        (Hub.Register h userID connID).2.2 =
          some { old with sendClosed := true, connClosed := true })
    ∧ (getKey? h.clients userID = none →
        (Hub.Register h userID connID).2.2 = none) := by
  cases hc : getKey? h.clients userID with
  | some old =>
      have hreg : Hub.Register h userID connID =
          (⟨setKey h.clients userID { userID := userID, connID := connID }⟩,
            { userID := userID, connID := connID },
            some { old with sendClosed := true, connClosed := true }) := by
        unfold Hub.Register
        rw [hc]
      rw [hreg]
      refine ⟨nodupKeys_setKey _ _ _ hkeys, getKey?_setKey_self _ _ _, rfl,
        ?_, ?_⟩
      · intro old2 h2
        injection h2 with h2
        subst h2
        rfl
      · intro h2
        cases h2
  | none =>
      have hreg : Hub.Register h userID connID =
          (⟨setKey h.clients userID { userID := userID, connID := connID }⟩,
            { userID := userID, connID := connID }, none) := by
        unfold Hub.Register
        rw [hc]
      rw [hreg]
      refine ⟨nodupKeys_setKey _ _ _ hkeys, getKey?_setKey_self _ _ _, rfl,
        ?_, ?_⟩
      · intro old2 h2
        cases h2
      · intro _
        rfl

/-- A hub holding one client for user 2 with a pending payload. -/
def sampleHub : Hub :=
  ⟨[(2, { userID := 2, connID := 1,
          sendQueue := [{ type := WSMsgTypeAck }] })]⟩

/-- C8 witness: re-registering user 2 on the sample hub keeps the one-client
invariant and returns the prior client with queue and connection closed. -/
theorem hub_register_unique_and_evicts_witness :
    hubKeysNodup (Hub.Register sampleHub 2 7).1
    ∧ (Hub.Register sampleHub 2 7).2.2 =
        some { userID := 2, connID := 1,
               sendQueue := [{ type := WSMsgTypeAck }], sendClosed := true,
               connClosed := true } :=
  ⟨(hub_register_unique_and_evicts sampleHub 2 7
      (by unfold hubKeysNodup; decide)).1,
    (hub_register_unique_and_evicts sampleHub 2 7
      (by unfold hubKeysNodup; decide)).2.2.2.1
      { userID := 2, connID := 1, sendQueue := [{ type := WSMsgTypeAck }] }
      (by decide)⟩

/-- C10: updating the status of a msg_id with no persisted row matches zero
rows and is reported as success (the table is unchanged, zero rows affected,
and gorm yields no error for an empty match), and MarkAsRead returns nil for
every input list: repository failures inside its loop only skip to the next
id, so no not-found condition is ever surfaced. -/
theorem markAsRead_never_fails (tbl : List Message) (hub : Hub)
    (userID : Int) (msgIDs : List String) (readTime : Int) (mid : String)
    (status t : Int) (hmissing : ∀ m ∈ tbl, m.msgID ≠ mid) :
    MessageRepository.UpdateStatus tbl mid status t = (tbl, 0)
    ∧ (IMServer.MarkAsRead tbl hub userID msgIDs readTime).2 = none := by
  constructor
  · unfold MessageRepository.UpdateStatus
    have hrows : ∀ m ∈ tbl, updateStatusRow mid status t m = m := by
      intro m hm
      unfold updateStatusRow
      rw [if_neg (hmissing m hm)]
    have hmap : tbl.map (updateStatusRow mid status t) = tbl := by
      calc tbl.map (updateStatusRow mid status t) = tbl.map id :=
            List.map_congr_left hrows
        _ = tbl := List.map_id tbl
    have hfil : tbl.filter (fun m => m.msgID == mid) = [] := by
      rw [List.filter_eq_nil_iff]
      intro m hm
      simp [hmissing m hm]
    rw [hmap, hfil]
    rfl
  · rfl

/-- C10 witness: the theorem instantiated at a table without the requested
msg_id and a two-element read-marking list. -/
theorem markAsRead_never_fails_witness :
    MessageRepository.UpdateStatus [sampleSentMsg] "missing" MsgStatusRead
      1000 = ([sampleSentMsg], 0)
    ∧ (IMServer.MarkAsRead [sampleSentMsg] ⟨[]⟩ 2 ["missing", "m1"]
        1000).2 = none :=
  markAsRead_never_fails [sampleSentMsg] ⟨[]⟩ 2 ["missing", "m1"] 1000
    "missing" MsgStatusRead 1000 (by decide)

/-! Claim theorems: history query (C7). -/

/-- The history filter as the spec words it, for comparison with the
implemented query: single-chat keeps the two directions of the conversation,
group chat keeps the group; before_time is an exclusive upper bound on
server_time when positive and no bound when 0. -/
def specHistoryFilter (req : GetMessagesRequest) (m : Message) : Prop :=
  (if req.sessionType = SessionTypeSingle then
    (m.fromUserID = req.userID ∧ m.toUserID = req.targetID) ∨
      (m.fromUserID = req.targetID ∧ m.toUserID = req.userID)
  else m.groupID = req.targetID)
  ∧ (req.beforeTime > 0 → m.serverTime < req.beforeTime)

/-- The conjunction C7 asserts of GetMessages: the WHERE stage keeps exactly
the rows the spec describes; every result row comes from that stage; results
are ordered by server_time descending; the result length is the filtered
count capped at the limit (20 when the request carries 0); and when the
filtered rows fit in the limit the result is exactly those rows. -/
def c7Statement (tbl : List Message) (req : GetMessagesRequest) : Prop :=
  (∀ m : Message, m ∈ MessageRepository.getMessagesQuery tbl req ↔
    m ∈ tbl ∧ specHistoryFilter req m)
  ∧ (∀ m ∈ MessageRepository.GetMessages tbl req,
      m ∈ MessageRepository.getMessagesQuery tbl req)
  ∧ (MessageRepository.GetMessages tbl req).Pairwise
      (fun a b => b.serverTime ≤ a.serverTime)
  ∧ (MessageRepository.GetMessages tbl req).length =
      min (getMessagesLimit req)
        (MessageRepository.getMessagesQuery tbl req).length
  ∧ ((MessageRepository.getMessagesQuery tbl req).length ≤
        getMessagesLimit req →
      (MessageRepository.GetMessages tbl req).Perm
        (MessageRepository.getMessagesQuery tbl req))

theorem serverTimeDesc_trans (a b c : Message) (hab : serverTimeDesc a b)
    (hbc : serverTimeDesc b c) : serverTimeDesc a c := by
  simp only [serverTimeDesc, decide_eq_true_iff] at *
  omega

theorem serverTimeDesc_total (a b : Message) :
    serverTimeDesc a b || serverTimeDesc b a := by
  simp only [serverTimeDesc, Bool.or_eq_true, decide_eq_true_iff]
  exact Int.le_total b.serverTime a.serverTime

theorem serverTimeAsc_trans (a b c : Message) (hab : serverTimeAsc a b)
    (hbc : serverTimeAsc b c) : serverTimeAsc a c := by
  simp only [serverTimeAsc, decide_eq_true_iff] at *
  omega

theorem serverTimeAsc_total (a b : Message) :
    serverTimeAsc a b || serverTimeAsc b a := by
  simp only [serverTimeAsc, Bool.or_eq_true, decide_eq_true_iff]
  exact Int.le_total a.serverTime b.serverTime

/-- C7: get_history returns for single chat exactly the rows of the two
conversation directions and for group chat exactly the rows of the group,
bounded by server_time < before_time when before_time > 0 and unbounded when
it is 0, limited to 20 rows when the request carries limit 0, ordered by
server_time descending. -/
theorem get_history_correct (tbl : List Message) (req : GetMessagesRequest) :
    c7Statement tbl req := by
  refine ⟨?_, ?_, ?_, ?_, ?_⟩
  · intro m
    by_cases hs : req.sessionType = SessionTypeSingle <;>
      by_cases hb : req.beforeTime > 0 <;>
        simp [MessageRepository.getMessagesQuery, msgMatches,
          specHistoryFilter, hs, hb, List.mem_filter, and_assoc] <;>
        tauto
  · intro m hm
    exact List.mem_mergeSort.mp (List.take_subset _ _ hm)
  · have hsorted := @List.sorted_mergeSort Message serverTimeDesc
      serverTimeDesc_trans serverTimeDesc_total
      (MessageRepository.getMessagesQuery tbl req)
    have htake : List.Sublist (MessageRepository.GetMessages tbl req)
        ((MessageRepository.getMessagesQuery tbl req).mergeSort
          serverTimeDesc) := List.take_sublist _ _
    exact (List.Pairwise.sublist htake hsorted).imp
      (fun hab => by simpa [serverTimeDesc, decide_eq_true_iff] using hab)
  · simp [MessageRepository.GetMessages, List.length_take,
      List.length_mergeSort]
  · intro hlen
    have heq : MessageRepository.GetMessages tbl req =
        (MessageRepository.getMessagesQuery tbl req).mergeSort
          serverTimeDesc := by
      unfold MessageRepository.GetMessages
      apply List.take_of_length_le
      rw [List.length_mergeSort]
      exact hlen
    rw [heq]
    exact List.mergeSort_perm _ _

/-- C7 witness: the theorem instantiated at a three-row table and a
single-chat request with before_time 3000 and the default limit. -/
theorem get_history_correct_witness :
    c7Statement
      [{ msgID := "h1", fromUserID := 1, toUserID := 2, serverTime := 1000,
         status := MsgStatusSent },
       { msgID := "h2", fromUserID := 2, toUserID := 1, serverTime := 2000,
         status := MsgStatusSent },
       { msgID := "h3", fromUserID := 1, toUserID := 3, serverTime := 1500,
         status := MsgStatusSent }]
      { userID := 1, targetID := 2, sessionType := 1, beforeTime := 3000,
        limit := 0 } :=
  get_history_correct
    [{ msgID := "h1", fromUserID := 1, toUserID := 2, serverTime := 1000,
       status := MsgStatusSent },
     { msgID := "h2", fromUserID := 2, toUserID := 1, serverTime := 2000,
       status := MsgStatusSent },
     { msgID := "h3", fromUserID := 1, toUserID := 3, serverTime := 1500,
       status := MsgStatusSent }]
    { userID := 1, targetID := 2, sessionType := 1, beforeTime := 3000,
      limit := 0 }

/-! Supporting lemmas for the offline drain (C6). -/

theorem msgID_updateStatusRow (y : String) (s t : Int) (m : Message) :
    (updateStatusRow y s t m).msgID = m.msgID := by
  unfold updateStatusRow
  split <;> rfl

theorem updateStatusRow_ne (y : String) (s t : Int) (m : Message)
    (h : m.msgID ≠ y) : updateStatusRow y s t m = m := by
  unfold updateStatusRow
  rw [if_neg h]

theorem updateStatusRow_delivered (y : String) (now : Int) (m : Message)
    (h : m.msgID = y) :
    updateStatusRow y MsgStatusDelivered now m =
      { m with status := MsgStatusDelivered, deliveredTime := now } := by
  unfold updateStatusRow
  rw [if_pos h]
  have h1 : MsgStatusDelivered = MsgStatusDelivered := rfl
  have h2 : ¬(MsgStatusDelivered = MsgStatusRead) := by decide
  rw [if_pos h1, if_neg h2]

theorem getByMsgID_updateStatus (tbl : List Message) (x y : String)
    (s t : Int) :
    MessageRepository.GetByMsgID
        (MessageRepository.UpdateStatus tbl y s t).1 x =
      (MessageRepository.GetByMsgID tbl x).map (updateStatusRow y s t) := by
  unfold MessageRepository.GetByMsgID MessageRepository.UpdateStatus
  induction tbl with
  | nil => rfl
  | cons h rest ih =>
      by_cases hx : h.msgID == x
      · simp [List.find?_cons, msgID_updateStatusRow, hx]
      · simpa [List.find?_cons, msgID_updateStatusRow, hx] using ih

theorem getByMsgID_updateStatus_ne (tbl : List Message) (x y : String)
    (s t : Int) (hxy : x ≠ y) :
    MessageRepository.GetByMsgID
        (MessageRepository.UpdateStatus tbl y s t).1 x =
      MessageRepository.GetByMsgID tbl x := by
  rw [getByMsgID_updateStatus]
  cases hfind : MessageRepository.GetByMsgID tbl x with
  | none => rfl
  | some r =>
      have hr : r.msgID = x := by
        unfold MessageRepository.GetByMsgID at hfind
        have := List.find?_some hfind
        simpa using this
      have hrow : updateStatusRow y s t r = r := by
        apply updateStatusRow_ne
        rw [hr]
        exact hxy
      simp [hrow]

theorem getByMsgID_of_mem_nodup :
    ∀ tbl : List Message, (tbl.map (·.msgID)).Nodup →
      ∀ m ∈ tbl, MessageRepository.GetByMsgID tbl m.msgID = some m := by
  intro tbl
  induction tbl with
  | nil =>
      intro _ m hm
      cases hm
  | cons h rest ih =>
      intro hnodup m hm
      have hnodup2 : (h.msgID :: rest.map (·.msgID)).Nodup := by
        rw [List.map_cons] at hnodup
        exact hnodup
      have hnd := List.nodup_cons.mp hnodup2
      rcases List.mem_cons.mp hm with rfl | hm2
      · simp [MessageRepository.GetByMsgID, List.find?_cons]
      · have hne : (h.msgID == m.msgID) = false := by
          rw [beq_eq_false_iff_ne]
          intro he
          exact hnd.1 (he ▸ List.mem_map.mpr ⟨m, hm2, rfl⟩)
        have := ih hnd.2 m hm2
        simpa [MessageRepository.GetByMsgID, List.find?_cons, hne] using this

theorem offlineDrainLoop_spec (userID now : Int) :
    ∀ msgs tbl : List Message, ∀ hub : Hub,
      (∀ m ∈ msgs, MessageRepository.GetByMsgID tbl m.msgID = some m) →
      (msgs.map (·.msgID)).Nodup →
      ∃ k, k ≤ msgs.length
        ∧ (IMServer.offlineDrainLoop tbl hub userID msgs now).2.2 =
            (msgs.take k).map (·.msgID)
        ∧ (∀ m ∈ msgs.take k,
            MessageRepository.GetByMsgID
                (IMServer.offlineDrainLoop tbl hub userID msgs now).1
                m.msgID =
              some { m with status := MsgStatusDelivered,
                            deliveredTime := now })
        ∧ (∀ m ∈ msgs.drop k,
            MessageRepository.GetByMsgID
                (IMServer.offlineDrainLoop tbl hub userID msgs now).1
                m.msgID = some m)
        ∧ (∀ x : String, x ∉ msgs.map (·.msgID) →
            MessageRepository.GetByMsgID
                (IMServer.offlineDrainLoop tbl hub userID msgs now).1 x =
              MessageRepository.GetByMsgID tbl x) := by
  intro msgs
  induction msgs with
  | nil =>
      intro tbl hub _ _
      refine ⟨0, Nat.le_refl 0, rfl, ?_, ?_, ?_⟩
      · intro m hm
        cases hm
      · intro m hm
        cases hm
      · intro x _
        rfl
  | cons msg rest ih =>
      intro tbl hub hpre hnodup
      have hnodup2 : (msg.msgID :: rest.map (·.msgID)).Nodup := by
        rw [List.map_cons] at hnodup
        exact hnodup
      have hnd := List.nodup_cons.mp hnodup2
      by_cases hs : (Hub.SendToUser hub userID (IMServer.pushPayload msg)).2
        = true
      · have hloop1 :
            (IMServer.offlineDrainLoop tbl hub userID (msg :: rest) now).1 =
            (IMServer.offlineDrainLoop
              (MessageRepository.UpdateStatus tbl msg.msgID
                MsgStatusDelivered now).1
              (IMServer.notifyStatusUpdate
                (Hub.SendToUser hub userID (IMServer.pushPayload msg)).1
                msg.fromUserID msg.msgID MsgStatusDelivered now)
              userID rest now).1 := by
          simp [IMServer.offlineDrainLoop, hs]
        have hloop3 :
            (IMServer.offlineDrainLoop tbl hub userID
              (msg :: rest) now).2.2 =
            msg.msgID :: (IMServer.offlineDrainLoop
              (MessageRepository.UpdateStatus tbl msg.msgID
                MsgStatusDelivered now).1
              (IMServer.notifyStatusUpdate
                (Hub.SendToUser hub userID (IMServer.pushPayload msg)).1
                msg.fromUserID msg.msgID MsgStatusDelivered now)
              userID rest now).2.2 := by
          simp [IMServer.offlineDrainLoop, hs]
        have hpre2 : ∀ m2 ∈ rest,
            MessageRepository.GetByMsgID
              (MessageRepository.UpdateStatus tbl msg.msgID
                MsgStatusDelivered now).1 m2.msgID = some m2 := by
          intro m2 hm2
          have hne : m2.msgID ≠ msg.msgID := by
            intro he
            exact hnd.1 (he ▸ List.mem_map.mpr ⟨m2, hm2, rfl⟩)
          rw [getByMsgID_updateStatus_ne tbl m2.msgID msg.msgID
            MsgStatusDelivered now hne]
          exact hpre m2 (List.mem_cons_of_mem _ hm2)
        obtain ⟨k, hk, htr, hdel, hrem, hfr⟩ :=
          ih (MessageRepository.UpdateStatus tbl msg.msgID
              MsgStatusDelivered now).1
            (IMServer.notifyStatusUpdate
              (Hub.SendToUser hub userID (IMServer.pushPayload msg)).1
              msg.fromUserID msg.msgID MsgStatusDelivered now)
            hpre2 hnd.2
        refine ⟨k + 1, ?_, ?_, ?_, ?_, ?_⟩
        · simpa using Nat.succ_le_succ hk
        · rw [hloop3, List.take_succ_cons, List.map_cons, htr]
        · intro m2 hm2
          rw [List.take_succ_cons] at hm2
          rcases List.mem_cons.mp hm2 with rfl | hm3
          · rw [hloop1, hfr m2.msgID hnd.1, getByMsgID_updateStatus,
              hpre m2 (List.mem_cons_self _ _)]
            rw [Option.map]
            rw [updateStatusRow_delivered m2.msgID now m2 rfl]
          · rw [hloop1]
            exact hdel m2 hm3
        · intro m2 hm2
          rw [List.drop_succ_cons] at hm2
          rw [hloop1]
          exact hrem m2 hm2
        · intro x hx
          rw [List.map_cons] at hx
          have hx1 : x ≠ msg.msgID := fun e => hx (e ▸ List.mem_cons_self _ _)
          have hx2 : x ∉ rest.map (·.msgID) :=
            fun e => hx (List.mem_cons_of_mem _ e)
          rw [hloop1, hfr x hx2,
            getByMsgID_updateStatus_ne tbl x msg.msgID _ _ hx1]
      · have hs2 : (Hub.SendToUser hub userID
            (IMServer.pushPayload msg)).2 = false := by
          cases hb : (Hub.SendToUser hub userID (IMServer.pushPayload msg)).2
          · rfl
          · exact absurd hb hs
        have hloop1 :
            (IMServer.offlineDrainLoop tbl hub userID (msg :: rest) now).1 =
              tbl := by
          simp [IMServer.offlineDrainLoop, hs2]
        have hloop3 :
            (IMServer.offlineDrainLoop tbl hub userID
              (msg :: rest) now).2.2 = [] := by
          simp [IMServer.offlineDrainLoop, hs2]
        refine ⟨0, Nat.zero_le _, by rw [hloop3]; rfl, ?_, ?_, ?_⟩
        · intro m2 hm2
          simp at hm2
        · intro m2 hm2
          rw [List.drop_zero] at hm2
          rw [hloop1]
          exact hpre m2 hm2
        · intro x _
          rw [hloop1]

/-- The conjunction C6 asserts of the offline drain: at most 100 messages are
fetched; every fetched message is a row of the table addressed to the user in
status sent; the fetched list is ordered by server_time ascending; and the
drain delivers exactly a prefix of that list, in order, marking each delivered
row delivered with delivered_time = now and leaving every remaining row
exactly as it was (still sent). -/
def c6Statement (tbl : List Message) (hub : Hub) (userID now : Int) : Prop :=
  (MessageRepository.GetUndeliveredMessages tbl userID 100).length ≤ 100
  ∧ (∀ m ∈ MessageRepository.GetUndeliveredMessages tbl userID 100,
      m ∈ tbl ∧ m.toUserID = userID ∧ m.status = MsgStatusSent)
  ∧ (MessageRepository.GetUndeliveredMessages tbl userID 100).Pairwise
      (fun a b => a.serverTime ≤ b.serverTime)
  ∧ ∃ k,
      k ≤ (MessageRepository.GetUndeliveredMessages tbl userID 100).length
      ∧ (IMServer.pushOfflineMessages tbl hub userID now).2.2 =
          ((MessageRepository.GetUndeliveredMessages tbl userID
            100).take k).map (·.msgID)
      ∧ (∀ m ∈ (MessageRepository.GetUndeliveredMessages tbl userID
            100).take k,
          MessageRepository.GetByMsgID
              (IMServer.pushOfflineMessages tbl hub userID now).1 m.msgID =
            some { m with status := MsgStatusDelivered,
                          deliveredTime := now })
      ∧ (∀ m ∈ (MessageRepository.GetUndeliveredMessages tbl userID
            100).drop k,
          MessageRepository.GetByMsgID
              (IMServer.pushOfflineMessages tbl hub userID now).1 m.msgID =
            some m)

/-- C6: the offline drain queries at most 100 undelivered messages (rows with
to_user_id = userID and status sent) in server_time ascending order, pushes
them in that order, stops at the first push the outbound queue does not
accept, marks the pushed prefix delivered, and leaves the remaining rows
untouched in status sent.  The msg_id uniqueness hypothesis embeds the unique
index on im_messages.msg_id. -/
theorem offline_drain_correct (tbl : List Message) (hub : Hub)
    (userID now : Int) (hnodup : (tbl.map (·.msgID)).Nodup) :
    c6Statement tbl hub userID now := by
  have hmem : ∀ m ∈ MessageRepository.GetUndeliveredMessages tbl userID 100,
      m ∈ tbl ∧ m.toUserID = userID ∧ m.status = MsgStatusSent := by
    intro m hm
    unfold MessageRepository.GetUndeliveredMessages at hm
    have h1 := List.take_subset _ _ hm
    have h2 := List.mem_mergeSort.mp h1
    have h3 := List.mem_filter.mp h2
    have h4 := h3.2
    simp only [Bool.and_eq_true, beq_iff_eq] at h4
    exact ⟨h3.1, h4.1, h4.2⟩
  have hnodupMsgs :
      ((MessageRepository.GetUndeliveredMessages tbl userID 100).map
        (·.msgID)).Nodup := by
    unfold MessageRepository.GetUndeliveredMessages
    have hfilsub := List.filter_sublist
      (l := tbl) (p := fun m => m.toUserID == userID &&
        m.status == MsgStatusSent)
    have hnd1 : ((tbl.filter (fun m => m.toUserID == userID &&
        m.status == MsgStatusSent)).map (·.msgID)).Nodup :=
      hnodup.sublist (hfilsub.map (·.msgID))
    have hperm := (List.mergeSort_perm
      (tbl.filter (fun m => m.toUserID == userID &&
        m.status == MsgStatusSent)) serverTimeAsc).map (·.msgID)
    have hnd2 := hperm.symm.nodup hnd1
    exact hnd2.sublist
      ((List.take_sublist 100
        ((tbl.filter (fun m => m.toUserID == userID &&
          m.status == MsgStatusSent)).mergeSort serverTimeAsc)).map
        (fun m : Message => m.msgID))
  have hpre : ∀ m ∈ MessageRepository.GetUndeliveredMessages tbl userID 100,
      MessageRepository.GetByMsgID tbl m.msgID = some m :=
    fun m hm => getByMsgID_of_mem_nodup tbl hnodup m (hmem m hm).1
  obtain ⟨k, hk, htr, hdel, hrem, _⟩ := offlineDrainLoop_spec userID now
    (MessageRepository.GetUndeliveredMessages tbl userID 100) tbl hub hpre
    hnodupMsgs
  refine ⟨?_, hmem, ?_, ⟨k, hk, htr, hdel, hrem⟩⟩
  · unfold MessageRepository.GetUndeliveredMessages
    rw [List.length_take]
    exact Nat.min_le_left _ _
  · unfold MessageRepository.GetUndeliveredMessages
    have hsorted := @List.sorted_mergeSort Message serverTimeAsc
      serverTimeAsc_trans serverTimeAsc_total
      (tbl.filter (fun m => m.toUserID == userID &&
        m.status == MsgStatusSent))
    have htake := List.take_sublist 100
      ((tbl.filter (fun m => m.toUserID == userID &&
        m.status == MsgStatusSent)).mergeSort serverTimeAsc)
    exact (List.Pairwise.sublist htake hsorted).imp
      (fun hab => by simpa [serverTimeAsc, decide_eq_true_iff] using hab)

/-- C6 witness: the theorem instantiated at a two-row undelivered backlog for
user 2 and a hub holding a client for user 2 with room in its queue. -/
theorem offline_drain_correct_witness :
    c6Statement
      [{ msgID := "d1", fromUserID := 1, toUserID := 2, serverTime := 2000,
         status := MsgStatusSent },
       { msgID := "d2", fromUserID := 1, toUserID := 2, serverTime := 1000,
         status := MsgStatusSent }]
      ⟨[(2, { userID := 2, connID := 1 })]⟩ 2 5000 :=
  offline_drain_correct
    [{ msgID := "d1", fromUserID := 1, toUserID := 2, serverTime := 2000,
       status := MsgStatusSent },
     { msgID := "d2", fromUserID := 1, toUserID := 2, serverTime := 1000,
       status := MsgStatusSent }]
    ⟨[(2, { userID := 2, connID := 1 })]⟩ 2 5000 (by decide)

end GoBaseIM
